import Mathlib

/-!
Verification of the NextWord token distribution & selection engine.

The definitions below are a shallow embedding of `src/adapter_hf.py` and
`src/main.py`.  Machine floats are modelled by exact rationals; the
elementary transcendental functions used by the source (`exp` in
`torch.softmax` / `math.exp` and `log` in `torch.log` / `math.log`) are
passed in as abstract parameters `fexp`, `flog`, so the data flow of the
source is kept intact while no numeric approximation is assumed.  The
external collaborators (tokenizer encode, model forward pass, random
multinomial draw) are likewise parameters.
-/

/- Batteries marks the `Rat` field operations `@[irreducible]`, which blocks
`decide`/`rfl` evaluation of concrete rational computations; restore the
default reducibility so the embedded functions evaluate on concrete inputs. -/
set_option allowUnsafeReducibility true in
attribute [semireducible] Rat.add Rat.sub Rat.mul Rat.div Rat.inv Rat.neg

namespace NextWord

/-! ### Constants (`HuggingFaceAdapter` class attributes and `main.py` module constants) -/

/-- `HuggingFaceAdapter.CONTEXT_CAP_TOKENS` -/
def CONTEXT_CAP_TOKENS : Nat := 512

/-- `HuggingFaceAdapter.TOP_K_MIN` -/
def TOP_K_MIN : Nat := 5

/-- `HuggingFaceAdapter.TOP_K_MAX` -/
def TOP_K_MAX : Nat := 30

/-- `main.TOP_K_MIN` -/
def MAIN_TOP_K_MIN : Nat := 5

/-- `main.TOP_K_MAX` -/
def MAIN_TOP_K_MAX : Nat := 30

/-- `main.MAX_PAYLOAD_SIZE` -/
def MAX_PAYLOAD_SIZE : Nat := 50000

/-- The clamp `k = max(self.TOP_K_MIN, min(self.TOP_K_MAX, k))` performed inside
`HuggingFaceAdapter.topk` and `HuggingFaceAdapter.choose`. -/
def adapterClampTopK (k : Nat) : Nat := max TOP_K_MIN (min TOP_K_MAX k)

/-- The clamp `clamped_top_k = max(TOP_K_MIN, min(TOP_K_MAX, request.top_k))`
performed in the `/step` and `/next_dist` handlers of `main.py`. -/
def mainClampTopK (k : Nat) : Nat := max MAIN_TOP_K_MIN (min MAIN_TOP_K_MAX k)

/-! ### DisplayFormatter (`make_token_display` in `adapter_hf.py`)

Strings are modelled as `List Char` (one entry per Unicode code point, as in
Python). -/

/-- Python `str.isspace` on a single character: the ASCII whitespace and
control separators plus the Unicode `Zs`/`Zl`/`Zp` space characters, as
implemented by CPython's `Py_UNICODE_ISSPACE` table. -/
def pythonIsSpace (c : Char) : Bool :=
  c.toNat ∈ [0x9, 0xA, 0xB, 0xC, 0xD, 0x1C, 0x1D, 0x1E, 0x1F, 0x20, 0x85, 0xA0,
      0x1680, 0x2028, 0x2029, 0x202F, 0x205F, 0x3000] ||
  (0x2000 ≤ c.toNat && c.toNat ≤ 0x200A)

/-- `unicodedata.category(char) == 'Cc'`: the Unicode general category `Cc`
is exactly the C0 controls `U+0000`–`U+001F`, `U+007F`, and the C1 controls
`U+0080`–`U+009F`. -/
def isCategoryCc (c : Char) : Bool :=
  c.toNat < 0x20 || (0x7F ≤ c.toNat && c.toNat ≤ 0x9F)

/-- One hexadecimal digit, uppercase, as produced by Python's `X` format. -/
def hexDigitChar (n : Nat) : Char :=
  if n < 10 then Char.ofNat (48 + n) else Char.ofNat (55 + n)

/-- Hexadecimal digits of `n`, most significant first, uppercase; structural
recursion on a fuel bound (`n + 1` divisions by 16 always suffice) so the
function evaluates inside the kernel. -/
def hexDigitsAux : Nat → Nat → List Char
  | 0, _ => []
  | fuel + 1, n =>
    if n < 16 then [hexDigitChar n]
    else hexDigitsAux fuel (n / 16) ++ [hexDigitChar (n % 16)]

/-- Hexadecimal digits of `n`, most significant first, uppercase. -/
def hexDigits (n : Nat) : List Char := hexDigitsAux (n + 1) n

/-- Python's `f'{n:04X}'`: uppercase hexadecimal, zero-padded to width 4. -/
def hex4 (n : Nat) : List Char :=
  List.replicate (4 - (hexDigits n).length) '0' ++ hexDigits n

/-- Decimal digits of `n`, most significant first, on a fuel bound as in
`hexDigitsAux`. -/
def decDigitsAux : Nat → Nat → List Char
  | 0, _ => []
  | fuel + 1, n =>
    if n < 10 then [Char.ofNat (48 + n)]
    else decDigitsAux fuel (n / 10) ++ [Char.ofNat (48 + n % 10)]

/-- Decimal digits of `n`, most significant first (Python's `f'{n}'`). -/
def decDigits (n : Nat) : List Char := decDigitsAux (n + 1) n

/-- The per-character replacement of the scan loop in `make_token_display`:
`Cc` characters become `⏎\n` / `⇥\t` / `␍\r` / `⟦U+XXXX⟧`, an ASCII space
becomes `␠`, every other character passes through literally.  (The displayed
`\n` is the two characters backslash and `n`, as in the Python literal
`'⏎\\n'`.) -/
def displayChar (c : Char) : List Char :=
  if isCategoryCc c then
    if c = '\n' then ['⏎', '\\', 'n']
    else if c = '\t' then ['⇥', '\\', 't']
    else if c = '\r' then ['␍', '\\', 'r']
    else ['⟦', 'U', '+'] ++ hex4 c.toNat ++ ['⟧']
  else if c = ' ' then ['␠']
  else [c]

/-- `make_token_display` (`adapter_hf.py`): empty strings pass through; a
string of Unicode whitespace only renders as `␠` / `␠×N` (by the count of
ASCII spaces when they make up the whole string, else by the character
count); otherwise every character is replaced by `displayChar`. -/
def makeTokenDisplay (s : List Char) : List Char :=
  if s.isEmpty then s
  else if s.all pythonIsSpace then
    if s.countP (fun c => c == ' ') = s.length then
      if s.countP (fun c => c == ' ') = 1 then ['␠']
      else ['␠', '×'] ++ decDigits (s.countP (fun c => c == ' '))
    else ['␠', '×'] ++ decDigits s.length
  else (s.map displayChar).flatten

/-! ### Context truncation (`HuggingFaceAdapter.tokenize`) -/

/-- The context-cap step `if len(ids) > 512: ids = ids[-512:]` of
`HuggingFaceAdapter.tokenize`; Python's `ids[-512:]` is the suffix of the
last 512 entries. -/
def truncateContext (ids : List Nat) : List Nat :=
  if CONTEXT_CAP_TOKENS < ids.length then ids.drop (ids.length - CONTEXT_CAP_TOKENS)
  else ids

/-! ### Soft logit bias (`HuggingFaceAdapter.forward_last`) -/

/-- `logits[i] -= off` on a rational logit list (`List.set` is a no-op out of
range; the embedded claims only evaluate it at in-range indices, where it
agrees with the Python item assignment). -/
def subAt (l : List ℚ) (i : Nat) (off : ℚ) : List ℚ :=
  l.set i (l.getD i 0 - off)

/-- The bias body of `forward_last`: subtract 2.0 at the newline id and at the
eos id, each skipped when the id is `none` (Python `None`). -/
def applyBias (l : List ℚ) (newline_id eos_id : Option Nat) : List ℚ :=
  let l1 := match newline_id with
    | some n => subAt l n 2
    | none => l
  match eos_id with
  | some e => subAt l1 e 2
  | none => l1

/-- `forward_last` after the model call: the returned logits with the optional
soft bias.  The model forward pass itself is an external collaborator; its
output is the `logits` argument. -/
def forwardLastBias (logits : List ℚ) (soften : Bool) (newline_id eos_id : Option Nat) :
    List ℚ :=
  if soften then applyBias logits newline_id eos_id else logits

/-! ### Sorting

`torch.sort(..., descending=True)`, `torch.topk` and the final Python
`result.sort(key=..., reverse=True)` are modelled by a stable descending
insertion sort keyed by a rational.  (The tie order of `torch.sort` /
`torch.topk` is not specified by their documentation; this model fixes the
stable order, i.e. ties keep ascending position.) -/

/-- Descending comparison by a rational key. -/
def descBy {α : Type} (key : α → ℚ) (a b : α) : Prop := key b ≤ key a

instance {α : Type} (key : α → ℚ) : DecidableRel (descBy key) :=
  fun a b => inferInstanceAs (Decidable (key b ≤ key a))

instance {α : Type} (key : α → ℚ) : IsTotal α (descBy key) :=
  ⟨fun a b => le_total (key b) (key a)⟩

instance {α : Type} (key : α → ℚ) : IsTrans α (descBy key) :=
  ⟨fun _ _ _ hab hbc => le_trans hbc hab⟩

/-- Stable descending sort by a rational key. -/
def sortDescBy {α : Type} (key : α → ℚ) (l : List α) : List α :=
  List.insertionSort (descBy key) l

/-! ### DistributionBuilder (`torch.log_softmax`)

`log_softmax(x)_i = x_i - log (Σ_j exp x_j)`; the max-subtraction performed
internally by torch for numerical stability is an algebraic identity for the
real `exp`/`log` and is not part of the mathematical function. -/

/-- `torch.log_softmax` over the abstract elementwise exponential/logarithm. -/
def logSoftmax (fexp flog : ℚ → ℚ) (logits : List ℚ) : List ℚ :=
  let lse := flog ((logits.map fexp).sum)
  logits.map (fun x => x - lse)

/-- `torch.softmax` over the abstract elementwise exponential. -/
def softmaxQ (fexp : ℚ → ℚ) (xs : List ℚ) : List ℚ :=
  (xs.map fexp).map (fun v => v / (xs.map fexp).sum)

/-! ### TopKRanker (`HuggingFaceAdapter.topk`) -/

/-- One ranking entry (`token_id`, `prob`, `logprob` of the Python `TokenInfo`
dict; the decoded surface strings are produced by the external tokenizer and
are not part of the ranked data the claims quantify over). -/
structure TokenInfo where
  token_id : Nat
  prob : ℚ
  logprob : ℚ
deriving Repr, DecidableEq

/-- `HuggingFaceAdapter.topk`: clamp `k` to `[5, 30]`, compute
`log_softmax(logits)`, take the `k` entries of largest log-probability
(`torch.topk`), build one entry per index with `prob = exp(logprob)`, and
finally sort by `prob` descending (the trailing `result.sort`). -/
def topkRank (fexp flog : ℚ → ℚ) (logits : List ℚ) (k : Nat) : List TokenInfo :=
  let kc := adapterClampTopK k
  let log_probs := logSoftmax fexp flog logits
  let sorted := sortDescBy Prod.snd log_probs.enum
  let result := (sorted.take kc).map
    (fun p => { token_id := p.1, prob := fexp p.2, logprob := p.2 : TokenInfo })
  sortDescBy TokenInfo.prob result

/-! ### TokenSelector (`HuggingFaceAdapter.choose`) -/

/-- The chosen-token record (`token_id`, `prob`, `logprob`, `surprisal`). -/
structure ChosenTok where
  token_id : Nat
  prob : ℚ
  logprob : ℚ
  surprisal : ℚ
deriving Repr, DecidableEq

/-- `torch.argmax`: the index of the first occurrence of the maximal value
(`0` for the empty list, where the Python call would fail). -/
def argmaxIdx (l : List ℚ) : Nat :=
  match l.enum.argmax Prod.snd with
  | some p => p.1
  | none => 0

/-- The `mode == "argmax"` branch of `choose`: `k` is clamped on entry but
unused; the chosen index is the argmax over the full `log_softmax`
distribution, `prob = exp(logprob)` and `surprisal = -log(prob + 1e-12)`. -/
def chooseGreedy (fexp flog : ℚ → ℚ) (logits : List ℚ) (k : Nat) : ChosenTok :=
  let _kc := adapterClampTopK k
  let log_probs := logSoftmax fexp flog logits
  let idx := argmaxIdx log_probs
  let logprob := log_probs.getD idx 0
  let prob := fexp logprob
  { token_id := idx, prob := prob, logprob := logprob,
    surprisal := -flog (prob + 1 / 1000000000000) }

/-- The effective temperature
`temperature if temperature is not None and temperature > 0 else 1.0`. -/
def tempEff (temperature : Option ℚ) : ℚ :=
  match temperature with
  | some v => if 0 < v then v else 1
  | none => 1

/-- Running cumulative sums (`torch.cumsum`) starting from `acc`. -/
def cumsumFrom (acc : ℚ) : List ℚ → List ℚ
  | [] => []
  | x :: xs => (acc + x) :: cumsumFrom (acc + x) xs

/-- `torch.cumsum` of a list. -/
def cumsum (l : List ℚ) : List ℚ := cumsumFrom 0 l

/-- The nucleus keep-mask of `choose`: `mask = cumsum_probs <= top_p`, and if
no entry is kept, `mask[0] = True` (keep at least the top token). -/
def nucleusMask (sortedVals : List ℚ) (p : ℚ) : List Bool :=
  let m := (cumsum sortedVals).map (fun c => decide (c ≤ p))
  if m.any id then m else m.set 0 true

/-- `torch.sort(probs, descending=True)` paired with the original indices. -/
def sortedPairs (probs : List ℚ) : List (Nat × ℚ) :=
  sortDescBy Prod.snd probs.enum

/-- The original indices whose mask entry is kept
(`sorted_indices[mask]`). -/
def keptIndices (probs : List ℚ) (p : ℚ) : List Nat :=
  let sorted := sortedPairs probs
  let m := nucleusMask (sorted.map Prod.snd) p
  ((sorted.zip m).filter (fun q => q.2)).map (fun q => q.1.1)

/-- The nucleus (top-p) filter of `choose`: zero the mass outside the kept
indices and renormalize by the kept mass
(`filtered_probs / filtered_probs.sum()`). -/
def nucleusFilter (probs : List ℚ) (p : ℚ) : List ℚ :=
  let kept := keptIndices probs p
  let filtered := probs.enum.map (fun q => if q.1 ∈ kept then q.2 else 0)
  filtered.map (fun v => v / filtered.sum)

/-- The length of the smallest prefix of the descending-sorted probabilities
whose cumulative probability reaches `p`.  Modelled from the spec sentence
"keep the smallest prefix whose cumulative probability is ≥ p" for comparison
with the code's mask; it is not a function of the source. -/
def specNucleusPrefixLen (sortedVals : List ℚ) (p : ℚ) : Nat :=
  match (cumsum sortedVals).findIdx? (fun c => decide (p ≤ c)) with
  | some i => i + 1
  | none => sortedVals.length

/-- The `mode == "stochastic"` branch of `choose`: `k` is clamped on entry but
unused; scale the original logits by `1/t`, softmax, optionally nucleus-filter
when `top_p < 1.0`, then draw one index via the external `sample` (the
`torch.multinomial` draw).  `logprob = log(prob + 1e-10)` and
`surprisal = -log(prob + 1e-12)`. -/
def chooseStochastic (fexp flog : ℚ → ℚ) (sample : List ℚ → Nat)
    (logits : List ℚ) (k : Nat) (temperature top_p : Option ℚ) : ChosenTok :=
  let _kc := adapterClampTopK k
  let scaled := logits.map (fun x => x / tempEff temperature)
  let probs := softmaxQ fexp scaled
  let probs2 :=
    match top_p with
    | some p => if p < 1 then nucleusFilter probs p else probs
    | none => probs
  let idx := sample probs2
  let cp := probs2.getD idx 0
  { token_id := idx, prob := cp,
    logprob := flog (cp + 1 / 10000000000),
    surprisal := -flog (cp + 1 / 1000000000000) }

/-- `HuggingFaceAdapter.choose`: dispatch on `mode`; an unsupported mode is a
`ValueError` (`raise ValueError(f"Unsupported mode: {mode}")`), modelled as
`Except.error` carrying the message. -/
def chooseTok (fexp flog : ℚ → ℚ) (sample : List ℚ → Nat) (logits : List ℚ)
    (mode : String) (k : Nat) (temperature top_p : Option ℚ) :
    Except String ChosenTok :=
  if mode = "argmax" then Except.ok (chooseGreedy fexp flog logits k)
  else if mode = "stochastic" then
    Except.ok (chooseStochastic fexp flog sample logits k temperature top_p)
  else Except.error ("Unsupported mode: " ++ mode)

/-! ### ResponseAssembler (`main.py` handlers) -/

/-- The structured error body `{"status": "error", "message": ..., "hint": ...}`
(the constant `status` field is omitted). -/
structure ErrorBody where
  message : String
  hint : String
deriving Repr, DecidableEq

/-- The 400 body returned for `top_k < 1`. -/
def topKErrorBody : ErrorBody :=
  ⟨"top_k must be a positive integer",
   "Provide a top_k value between 1 and 30 (will be clamped to [5, 30])"⟩

/-- The 400 body returned for an oversized `context_text`
(`f"Input too large (max {MAX_PAYLOAD_SIZE} characters)"`). -/
def payloadErrorBody : ErrorBody :=
  ⟨"Input too large (max 50000 characters)",
   "Reduce the size of your context_text input"⟩

/-- The entry prepended by the merge step: the chosen token reused as a
ranking entry (the response model keeps its `token_id`, `prob`, `logprob`). -/
def chosenToInfo (c : ChosenTok) : TokenInfo :=
  ⟨c.token_id, c.prob, c.logprob⟩

/-- The merge step of `/step`: if the chosen id is not in the top-k list,
prepend the chosen entry and drop the last entry
(`topk = [chosen] + topk[:-1]`); no re-sort follows. -/
def mergeChosen (c : ChosenTok) (tk : List TokenInfo) : List TokenInfo :=
  if tk.any (fun t => t.token_id == c.token_id) then tk
  else chosenToInfo c :: tk.dropLast

/-- The `/step` response fields the claims quantify over. -/
structure StepResp where
  context_len_tokens : Nat
  ranking : List TokenInfo
  coverage_topk : ℚ
  last_token : Option Nat
  chosen : ChosenTok
  used_top_k : Nat
deriving Repr, DecidableEq

/-- The `/next_dist` response fields the claims quantify over. -/
structure NextDistResp where
  context_len_tokens : Nat
  ranking : List TokenInfo
  coverage_topk : ℚ
  last_token : Option Nat
deriving Repr, DecidableEq

/-- The logits a handler works on: tokenize, truncate (the truncation lives
inside `adapter.tokenize`), score via the external forward pass, and apply
the optional soft bias (`context_ids` / `logits` locals of the handlers). -/
def handlerLogits (tokenize : List Char → List Nat) (scorer : List Nat → List ℚ)
    (soften : Bool) (newline_id eos_id : Option Nat) (context_text : List Char) :
    List ℚ :=
  forwardLastBias (scorer (truncateContext (tokenize context_text)))
    soften newline_id eos_id

/-- The successful `/step` response body: merged ranking, coverage over the
merged ranking, the final context token and the clamped `used_top_k`. -/
def stepOkResp (fexp flog : ℚ → ℚ) (c : ChosenTok) (ids : List Nat)
    (logits : List ℚ) (kc : Nat) : StepResp :=
  { context_len_tokens := ids.length
    ranking := mergeChosen c (topkRank fexp flog logits kc)
    coverage_topk := ((mergeChosen c (topkRank fexp flog logits kc)).map
      TokenInfo.prob).sum
    last_token := ids.getLast?
    chosen := c
    used_top_k := kc }

/-- The `/step` handler of `main.py` after request parsing: validation,
clamping, tokenize-and-truncate, forward pass with optional soft bias, top-k
ranking, token choice, merge and assembly.  `tokenize` (the raw encoder),
`scorer` (the model forward pass) and `sample` (the multinomial draw) are the
external collaborators. -/
def stepHandler (tokenize : List Char → List Nat) (scorer : List Nat → List ℚ)
    (fexp flog : ℚ → ℚ) (sample : List ℚ → Nat)
    (context_text : List Char) (top_k : Int) (mode : String)
    (temperature top_p : Option ℚ) (soften : Bool) (newline_id eos_id : Option Nat) :
    Except ErrorBody StepResp :=
  if top_k < 1 then Except.error topKErrorBody
  else if MAX_PAYLOAD_SIZE < context_text.length then Except.error payloadErrorBody
  else
    match chooseTok fexp flog sample
        (handlerLogits tokenize scorer soften newline_id eos_id context_text)
        mode (mainClampTopK top_k.toNat) temperature top_p with
    | Except.error e => Except.error ⟨e, "Check your input parameters"⟩
    | Except.ok c =>
      Except.ok (stepOkResp fexp flog c (truncateContext (tokenize context_text))
        (handlerLogits tokenize scorer soften newline_id eos_id context_text)
        (mainClampTopK top_k.toNat))

/-- The `/next_dist` handler of `main.py` after request parsing: same pipeline
without choice or merge; `forward_last` is always called with
`soften_newline_eot=False`. -/
def nextDistHandler (tokenize : List Char → List Nat) (scorer : List Nat → List ℚ)
    (fexp flog : ℚ → ℚ) (newline_id eos_id : Option Nat)
    (context_text : List Char) (top_k : Int) : Except ErrorBody NextDistResp :=
  if top_k < 1 then Except.error topKErrorBody
  else if MAX_PAYLOAD_SIZE < context_text.length then Except.error payloadErrorBody
  else
    let kc := mainClampTopK top_k.toNat
    let ids := truncateContext (tokenize context_text)
    let logits := forwardLastBias (scorer ids) false newline_id eos_id
    let tk := topkRank fexp flog logits kc
    Except.ok
      { context_len_tokens := ids.length
        ranking := tk
        coverage_topk := (tk.map TokenInfo.prob).sum
        last_token := ids.getLast? }

/-! ## Helper lemmas -/

theorem subAt_getD (l : List ℚ) (i j : Nat) (off : ℚ) (hj : j < l.length) :
    (subAt l i off).getD j 0 = if i = j then l.getD j 0 - off else l.getD j 0 := by
  unfold subAt
  by_cases h : i = j
  · subst h
    rw [if_pos rfl, List.getD_eq_getElem?_getD, List.getElem?_set_eq_of_lt _ hj]
    rfl
  · rw [if_neg h, List.getD_eq_getElem?_getD, List.getElem?_set_ne h,
      ← List.getD_eq_getElem?_getD]

theorem subAt_length (l : List ℚ) (i : Nat) (off : ℚ) :
    (subAt l i off).length = l.length := by
  simp [subAt]

theorem applyBias_getD (l : List ℚ) (nid eid : Option Nat) (j : Nat) (hj : j < l.length) :
    (applyBias l nid eid).getD j 0 =
      l.getD j 0 - (if nid = some j then 2 else 0) - (if eid = some j then 2 else 0) := by
  unfold applyBias
  cases nid with
  | none =>
    cases eid with
    | none => simp
    | some e =>
      rw [subAt_getD l e j 2 hj]
      by_cases h : e = j <;> simp [h]
  | some n =>
    cases eid with
    | none =>
      rw [subAt_getD l n j 2 hj]
      by_cases h : n = j <;> simp [h]
    | some e =>
      rw [subAt_getD (subAt l n 2) e j 2 (by rw [subAt_length]; exact hj),
        subAt_getD l n j 2 hj]
      by_cases h1 : n = j <;> by_cases h2 : e = j <;> simp [h1, h2]

theorem applyBias_length (l : List ℚ) (nid eid : Option Nat) :
    (applyBias l nid eid).length = l.length := by
  unfold applyBias
  cases nid <;> cases eid <;> simp [subAt_length]

theorem argmaxIdx_is_max (l : List ℚ) (j : Nat) (hj : j < l.length) :
    l.getD j 0 ≤ l.getD (argmaxIdx l) 0 := by
  unfold argmaxIdx
  cases hm : l.enum.argmax Prod.snd with
  | none =>
    rw [List.argmax_eq_none] at hm
    have hz : l.length = 0 := by simpa using congrArg List.length hm
    omega
  | some p =>
    have hpmem : p ∈ l.enum := List.argmax_mem hm
    have hget : l[p.1]? = some p.2 := List.mem_enum_iff_getElem?.mp hpmem
    have hgd : l.getD p.1 0 = p.2 := by
      rw [List.getD_eq_getElem?_getD, hget]
      rfl
    have hjmem : (j, l.getD j 0) ∈ l.enum := by
      rw [List.mem_enum_iff_getElem?]
      show l[j]? = some (l.getD j 0)
      rw [List.getD_eq_getElem?_getD, List.getElem?_eq_getElem hj]
      rfl
    have hle := List.le_of_mem_argmax hjmem hm
    rw [hgd]
    exact hle

theorem sortDescBy_perm {α : Type} (key : α → ℚ) (l : List α) :
    List.Perm (sortDescBy key l) l :=
  List.perm_insertionSort _ _

theorem sortDescBy_pairwise {α : Type} (key : α → ℚ) (l : List α) :
    (sortDescBy key l).Pairwise (fun a b => key b ≤ key a) :=
  List.Pairwise.imp (fun h => h) (List.sorted_insertionSort (descBy key) l)

theorem logSoftmax_length (fexp flog : ℚ → ℚ) (logits : List ℚ) :
    (logSoftmax fexp flog logits).length = logits.length := by
  simp [logSoftmax]

theorem topkRank_length (fexp flog : ℚ → ℚ) (logits : List ℚ) (k : Nat)
    (h : adapterClampTopK k ≤ logits.length) :
    (topkRank fexp flog logits k).length = adapterClampTopK k := by
  simp only [topkRank]
  rw [(sortDescBy_perm TokenInfo.prob _).length_eq, List.length_map, List.length_take,
    (sortDescBy_perm Prod.snd _).length_eq, List.enum_length, logSoftmax_length]
  omega

theorem topkRank_pairwise (fexp flog : ℚ → ℚ) (logits : List ℚ) (k : Nat) :
    (topkRank fexp flog logits k).Pairwise (fun a b => b.prob ≤ a.prob) := by
  simp only [topkRank]
  exact sortDescBy_pairwise TokenInfo.prob _

theorem topkRank_nodup_ids (fexp flog : ℚ → ℚ) (logits : List ℚ) (k : Nat) :
    ((topkRank fexp flog logits k).map TokenInfo.token_id).Nodup := by
  simp only [topkRank]
  have hmm : ∀ (t : List (Nat × ℚ)),
      (t.map (fun p => { token_id := p.1, prob := fexp p.2, logprob := p.2 : TokenInfo })).map
        TokenInfo.token_id = t.map Prod.fst := by
    intro t
    rw [List.map_map]
    rfl
  set lp := logSoftmax fexp flog logits with hlp
  have h1 : (lp.enum.map Prod.fst).Nodup := by
    rw [List.enum_eq_enumFrom, List.enumFrom_map_fst, ← List.range_eq_range']
    exact List.nodup_range _
  have h2 : ((sortDescBy Prod.snd lp.enum).map Prod.fst).Nodup :=
    (((sortDescBy_perm Prod.snd lp.enum).map Prod.fst).nodup_iff).mpr h1
  have h3 : (((sortDescBy Prod.snd lp.enum).take (adapterClampTopK k)).map Prod.fst).Nodup :=
    ((List.take_sublist _ _).map Prod.fst).nodup h2
  have h4 := ((sortDescBy_perm TokenInfo.prob
    (((sortDescBy Prod.snd lp.enum).take (adapterClampTopK k)).map
      (fun p => { token_id := p.1, prob := fexp p.2, logprob := p.2 : TokenInfo }))).map
        TokenInfo.token_id).nodup_iff
  rw [hmm] at h4
  exact h4.mpr h3

theorem stepHandler_ok_used_top_k (tokenize : List Char → List Nat)
    (scorer : List Nat → List ℚ) (fexp flog : ℚ → ℚ) (sample : List ℚ → Nat)
    (ctx : List Char) (tkq : Int) (mode : String) (t p : Option ℚ) (soften : Bool)
    (nid eid : Option Nat) (resp : StepResp)
    (h : stepHandler tokenize scorer fexp flog sample ctx tkq mode t p soften nid eid =
      Except.ok resp) :
    resp.used_top_k = mainClampTopK tkq.toNat := by
  unfold stepHandler at h
  split at h
  · simp at h
  · split at h
    · simp at h
    · split at h
      · simp at h
      · simp only [Except.ok.injEq] at h
        rw [← h]
        rfl

/-! ## Claim theorems -/

/-- Claim C3: greedy selection returns a token id whose log-probability is
maximal over the entire log-softmax distribution — the whole vocabulary, not
any top-k window — independent of the `k` parameter; the reported
log-probability is the distribution's entry at that id, the probability is
`exp` of the log-probability, and the surprisal is
`-log(probability + 1e-12)` (for the abstract `exp`/`log`). -/
theorem greedy_argmax (fexp flog : ℚ → ℚ) (logits : List ℚ) (k₁ k₂ : Nat) :
    chooseGreedy fexp flog logits k₁ = chooseGreedy fexp flog logits k₂ ∧
    (∀ j, j < logits.length →
      (logSoftmax fexp flog logits).getD j 0 ≤
        (logSoftmax fexp flog logits).getD
          (chooseGreedy fexp flog logits k₁).token_id 0) ∧
    (chooseGreedy fexp flog logits k₁).logprob =
      (logSoftmax fexp flog logits).getD
        (chooseGreedy fexp flog logits k₁).token_id 0 ∧
    (chooseGreedy fexp flog logits k₁).prob =
      fexp (chooseGreedy fexp flog logits k₁).logprob ∧
    (chooseGreedy fexp flog logits k₁).surprisal =
      -flog ((chooseGreedy fexp flog logits k₁).prob + 1 / 1000000000000) := by
  refine ⟨rfl, fun j hj => ?_, rfl, rfl, rfl⟩
  have hlen : (logSoftmax fexp flog logits).length = logits.length := by
    simp [logSoftmax]
  exact argmaxIdx_is_max (logSoftmax fexp flog logits) j (by rw [hlen]; exact hj)

/-- Claim C4 (amended): for every logit vector long enough to hold the
clamped k, the ranking has exactly `clamp(top_k, [5, 30])` entries,
descending by probability — non-strictly: exact probability ties keep the
order only weakly descending — with no duplicate token ids; a successful
`/step` response reports `used_top_k` equal to the orchestration-level clamp
of the request (`clamp 3 = 5`, `clamp 50 = 30`), and the ranker-internal
clamp and the orchestration-level clamp agree at every argument. -/
theorem topk_ranking_properties (fexp flog : ℚ → ℚ) (logits : List ℚ) (k : Nat)
    (h : adapterClampTopK k ≤ logits.length) :
    (topkRank fexp flog logits k).length = adapterClampTopK k ∧
    ((topkRank fexp flog logits k).map TokenInfo.token_id).Nodup ∧
    (topkRank fexp flog logits k).Pairwise (fun a b => b.prob ≤ a.prob) ∧
    adapterClampTopK 3 = 5 ∧ adapterClampTopK 50 = 30 ∧
    (∀ j, adapterClampTopK j = mainClampTopK j) ∧
    (∀ tokenize scorer sample ctx tkq mode t p soften nid eid resp,
      stepHandler tokenize scorer fexp flog sample ctx tkq mode t p soften nid eid =
        Except.ok resp → resp.used_top_k = mainClampTopK tkq.toNat) :=
  ⟨topkRank_length fexp flog logits k h, topkRank_nodup_ids fexp flog logits k,
    topkRank_pairwise fexp flog logits k, rfl, rfl, fun _ => rfl,
    fun tokenize scorer sample ctx tkq mode t p soften nid eid resp hok =>
      stepHandler_ok_used_top_k tokenize scorer fexp flog sample ctx tkq mode t p
        soften nid eid resp hok⟩

/-- Counterexample for C4: on a uniform logit vector every selected entry has
the same probability, so the returned ranking is not strictly descending by
probability. -/
theorem topk_not_strictly_descending :
    ¬ (topkRank id id [(0 : ℚ), 0, 0, 0, 0, 0] 3).Pairwise
      (fun a b => b.prob < a.prob) := by decide

/-- Witness for C4: requesting `k = 3` on a 6-entry vocabulary yields a
ranking of length `adapterClampTopK 3 = 5`. -/
theorem topk_ranking_properties_witness :
    (topkRank id id [(1 : ℚ), 2, 3, 4, 5, 6] 3).length = adapterClampTopK 3 ∧
    adapterClampTopK 3 = 5 := by
  have h := topk_ranking_properties id id [(1 : ℚ), 2, 3, 4, 5, 6] 3 (by decide)
  exact ⟨h.1, h.2.2.2.1⟩

/-- Claim C1 (evaluation at the failing input): with softmax probabilities
`[1/2, 1/2]` — produced from logits `[0, 0]` by the embedded softmax under a
constant exponential — and `top_p = 7/10`, the code's nucleus mask
`cumsum <= top_p` keeps only the first sorted token (kept indices `[0]`), yet
its cumulative mass `1/2` does not reach `top_p`; the smallest
descending-sorted prefix with cumulative probability `≥ top_p` that the claim
(and the code's own comment) demands has 2 tokens.  The keep-at-least-one
floor and the renormalization do hold: the filtered distribution is `[1, 0]`,
summing to exactly 1. -/
theorem nucleus_mask_failing_input :
    softmaxQ (fun _ => 1) [(0 : ℚ), 0] = [1/2, 1/2] ∧
    keptIndices [(1 : ℚ)/2, 1/2] (7/10) = [0] ∧
    cumsum [(1 : ℚ)/2, 1/2] = [1/2, 1] ∧
    ¬ (7/10 : ℚ) ≤ 1/2 ∧
    specNucleusPrefixLen [(1 : ℚ)/2, 1/2] (7/10) = 2 ∧
    nucleusFilter [(1 : ℚ)/2, 1/2] (7/10) = [1, 0] := by decide

/-- Counterexample for C9: a lone newline string is entirely Unicode
whitespace containing zero ASCII spaces, so `make_token_display` renders it
as `␠×1` — not as `⏎\n` as the claim states. -/
theorem newline_display_counterexample :
    makeTokenDisplay ['\n'] = ['␠', '×', '1'] ∧
    makeTokenDisplay ['\n'] ≠ ['⏎', '\\', 'n'] := by decide

/-- Claim C9 (amended): `make_token_display` is a total function mapping a
single space to `␠`, three spaces to `␠×3`, a newline inside a
not-all-whitespace string to `⏎\n` (e.g. `"a\n"`), the control character
`U+0001` to `⟦U+0001⟧`, and a lone newline — an all-whitespace string with
zero ASCII spaces — to `␠×1`; every nonempty all-whitespace string renders as
`␠` / `␠×N` when it is all ASCII spaces and as `␠×N` with `N` the character
count otherwise. -/
theorem display_formatter_rules (s : List Char) :
    makeTokenDisplay [' '] = ['␠'] ∧
    makeTokenDisplay [' ', ' ', ' '] = ['␠', '×', '3'] ∧
    makeTokenDisplay ['a', '\n'] = ['a', '⏎', '\\', 'n'] ∧
    makeTokenDisplay ['\x01'] = ['⟦', 'U', '+', '0', '0', '0', '1', '⟧'] ∧
    makeTokenDisplay ['\n'] = ['␠', '×', '1'] ∧
    (s ≠ [] → s.all pythonIsSpace = true →
      (s.countP (fun c => c == ' ') = s.length →
        makeTokenDisplay s =
          if s.length = 1 then ['␠'] else ['␠', '×'] ++ decDigits s.length) ∧
      (s.countP (fun c => c == ' ') ≠ s.length →
        makeTokenDisplay s = ['␠', '×'] ++ decDigits s.length)) := by
  refine ⟨by decide, by decide, by decide, by decide, by decide, fun hne hsp => ?_⟩
  have hie : s.isEmpty = false := by
    cases s with
    | nil => exact absurd rfl hne
    | cons a l => rfl
  refine ⟨fun hc => ?_, fun hc => ?_⟩
  · unfold makeTokenDisplay
    rw [if_neg (by simp [hie]), if_pos hsp, if_pos hc, hc]
  · unfold makeTokenDisplay
    rw [if_neg (by simp [hie]), if_pos hsp, if_neg hc]

/-- Witness for C9: the mixed-whitespace string of a space and a tab renders
as `␠×2`. -/
theorem display_formatter_rules_witness :
    makeTokenDisplay [' ', '\t'] = ['␠', '×'] ++ decDigits 2 := by
  have h := ((display_formatter_rules [' ', '\t']).2.2.2.2.2
    (by decide) (by decide)).2 (by decide)
  simpa using h

/-- Witness for C3: on logits `[1, 3, 2]`, `k = 5` and `k = 9` choose the same
token, and entry 0 of the distribution is at most the chosen entry. -/
theorem greedy_argmax_witness :
    chooseGreedy id id [(1 : ℚ), 3, 2] 5 = chooseGreedy id id [(1 : ℚ), 3, 2] 9 ∧
    (logSoftmax id id [(1 : ℚ), 3, 2]).getD 0 0 ≤
      (logSoftmax id id [(1 : ℚ), 3, 2]).getD
        (chooseGreedy id id [(1 : ℚ), 3, 2] 5).token_id 0 :=
  ⟨(greedy_argmax id id [(1 : ℚ), 3, 2] 5 9).1,
    (greedy_argmax id id [(1 : ℚ), 3, 2] 5 9).2.1 0 (by norm_num)⟩

/-- Claim C6: the context window cap keeps exactly the last 512 token ids in
their original relative order when the tokenization is longer than 512, and
passes shorter sequences through unchanged. -/
theorem context_window_cap (ids : List Nat) :
    (CONTEXT_CAP_TOKENS < ids.length →
      truncateContext ids = ids.drop (ids.length - CONTEXT_CAP_TOKENS) ∧
      (truncateContext ids).length = CONTEXT_CAP_TOKENS) ∧
    (ids.length ≤ CONTEXT_CAP_TOKENS → truncateContext ids = ids) := by
  constructor
  · intro h
    unfold truncateContext
    rw [if_pos h]
    refine ⟨rfl, ?_⟩
    rw [List.length_drop]
    omega
  · intro h
    unfold truncateContext
    rw [if_neg (by omega)]

/-- Witness for C6: a tokenization of length 2000 is cut to exactly its last
512 ids. -/
theorem context_window_cap_witness :
    truncateContext (List.range 2000) = (List.range 2000).drop 1488 ∧
    (truncateContext (List.range 2000)).length = 512 := by
  have hlen : (List.range 2000).length = 2000 := by simp
  have h := (context_window_cap (List.range 2000)).1
    (by rw [hlen]; norm_num [CONTEXT_CAP_TOKENS])
  rw [hlen] at h
  have h1488 : 2000 - CONTEXT_CAP_TOKENS = 1488 := by norm_num [CONTEXT_CAP_TOKENS]
  rw [h1488] at h
  exact ⟨h.1, h.2.trans (by rfl)⟩

/-- Claim C2: after the merge step of a selection call, the final ranking
contains the chosen token's id and keeps length exactly `k`; when the chosen
id was absent the result is exactly the chosen entry prepended with the last
entry dropped, and otherwise the list is returned untouched (no re-sort in
either case). -/
theorem merge_step_properties (c : ChosenTok) (tk : List TokenInfo) (k : Nat)
    (hlen : tk.length = k) (hk : 1 ≤ k) :
    (mergeChosen c tk).length = k ∧
    c.token_id ∈ (mergeChosen c tk).map TokenInfo.token_id ∧
    (mergeChosen c tk = tk ∨ mergeChosen c tk = chosenToInfo c :: tk.dropLast) := by
  unfold mergeChosen
  by_cases h : tk.any (fun t => t.token_id == c.token_id) = true
  · rw [if_pos h]
    rcases List.any_eq_true.mp h with ⟨t, ht, he⟩
    refine ⟨hlen, ?_, Or.inl rfl⟩
    exact List.mem_map.mpr ⟨t, ht, by simpa using he⟩
  · rw [if_neg h]
    refine ⟨?_, ?_, Or.inr rfl⟩
    · rw [List.length_cons, List.length_dropLast]
      omega
    · exact List.mem_map.mpr ⟨chosenToInfo c, List.mem_cons_self _ _, rfl⟩

/-- Witness for C2: a chosen token absent from a 5-entry ranking is merged in
at the front and the length stays 5. -/
theorem merge_step_properties_witness :
    (mergeChosen ⟨9, 0, 0, 0⟩
        [⟨0, 5, 0⟩, ⟨1, 4, 0⟩, ⟨2, 3, 0⟩, ⟨3, 2, 0⟩, ⟨4, 1, 0⟩]).length = 5 ∧
    (9 : Nat) ∈ (mergeChosen ⟨9, 0, 0, 0⟩
        [⟨0, 5, 0⟩, ⟨1, 4, 0⟩, ⟨2, 3, 0⟩, ⟨3, 2, 0⟩, ⟨4, 1, 0⟩]).map TokenInfo.token_id := by
  have h := merge_step_properties ⟨9, 0, 0, 0⟩
    [⟨0, 5, 0⟩, ⟨1, 4, 0⟩, ⟨2, 3, 0⟩, ⟨3, 2, 0⟩, ⟨4, 1, 0⟩] 5 (by rfl) (by omega)
  exact ⟨h.1, h.2.1⟩

/-- Claim C10: stochastic selection is independent of `k` — with the same
abstract exp/log, the same sampler (identical random draw), the same logits,
temperature and nucleus threshold, `choose` in stochastic mode returns the
same chosen record (token id, probability, log-probability and surprisal) for
any two `k ≥ 1`; `k` is clamped on entry and never used afterwards. -/
theorem stochastic_k_independent (fexp flog : ℚ → ℚ) (sample : List ℚ → Nat)
    (logits : List ℚ) (temperature top_p : Option ℚ) (k₁ k₂ : Nat)
    (_h₁ : 1 ≤ k₁) (_h₂ : 1 ≤ k₂) :
    chooseTok fexp flog sample logits ("stochastic") k₁ temperature top_p =
      chooseTok fexp flog sample logits ("stochastic") k₂ temperature top_p := rfl

/-- Witness for C10: `k = 5` and `k = 30` give the same stochastic choice on a
concrete input. -/
theorem stochastic_k_independent_witness :
    chooseTok id id (fun _ => 0) [(1 : ℚ), 2] ("stochastic") 5 (some 1) (some 1) =
      chooseTok id id (fun _ => 0) [(1 : ℚ), 2] ("stochastic") 30 (some 1) (some 1) :=
  stochastic_k_independent id id (fun _ => 0) [(1 : ℚ), 2] (some 1) (some 1) 5 30
    (by omega) (by omega)

/-- Claim C8: with the soft bias requested, exactly 2.0 is subtracted at the
newline index and at the end-of-text index (an undefined id is skipped; every
entry stays the original minus 0, 2 or 4 — never minus infinity), all other
entries are unchanged, the length is preserved, and distribution-only calls
(`/next_dist`, which always passes `soften_newline_eot=False`) are unaffected
by the bias ids entirely. -/
theorem soft_bias_frame (x : List ℚ) (nid eid : Option Nat) :
    (∀ j, j < x.length →
      (applyBias x nid eid).getD j 0 =
        x.getD j 0 - (if nid = some j then 2 else 0) - (if eid = some j then 2 else 0)) ∧
    (applyBias x nid eid).length = x.length ∧
    forwardLastBias x false nid eid = x ∧
    (∀ tokenize scorer fexp flog ctx k nid₂ eid₂,
      nextDistHandler tokenize scorer fexp flog nid eid ctx k =
        nextDistHandler tokenize scorer fexp flog nid₂ eid₂ ctx k) := by
  refine ⟨fun j hj => applyBias_getD x nid eid j hj, applyBias_length x nid eid, rfl,
    fun tokenize scorer fexp flog ctx k nid₂ eid₂ => rfl⟩

/-- Witness for C8: on logits `[1, 2, 3]` with newline id 0 and eos id 2, the
biased entry at index 0 is the original minus 2. -/
theorem soft_bias_frame_witness :
    (applyBias [(1 : ℚ), 2, 3] (some 0) (some 2)).getD 0 0 =
      ([(1 : ℚ), 2, 3].getD 0 0) - (if (some 0 : Option Nat) = some 0 then 2 else 0) -
        (if (some 2 : Option Nat) = some 0 then 2 else 0) :=
  (soft_bias_frame [(1 : ℚ), 2, 3] (some 0) (some 2)).1 0 (by norm_num)

/-- Claim C7: a request with `top_k < 1` or with context text longer than
50000 characters is rejected with a structured error carrying both a message
and a hint, and the result is the same for every scorer (the Scorer is never
consulted); an unsupported selection mode is reported to the caller as an
error rather than silently falling back to another mode. -/
theorem request_validation (tokenize : List Char → List Nat)
    (scorer : List Nat → List ℚ) (fexp flog : ℚ → ℚ) (sample : List ℚ → Nat)
    (ctx : List Char) (top_k : Int) (mode : String) (temperature top_p : Option ℚ)
    (soften : Bool) (nid eid : Option Nat) :
    (top_k < 1 → ∀ scorer₂,
      stepHandler tokenize scorer₂ fexp flog sample ctx top_k mode temperature top_p
          soften nid eid = Except.error topKErrorBody) ∧
    (1 ≤ top_k → MAX_PAYLOAD_SIZE < ctx.length → ∀ scorer₂,
      stepHandler tokenize scorer₂ fexp flog sample ctx top_k mode temperature top_p
          soften nid eid = Except.error payloadErrorBody) ∧
    (1 ≤ top_k → ctx.length ≤ MAX_PAYLOAD_SIZE → mode ≠ "argmax" → mode ≠ "stochastic" →
      stepHandler tokenize scorer fexp flog sample ctx top_k mode temperature top_p
          soften nid eid =
        Except.error ⟨"Unsupported mode: " ++ mode, "Check your input parameters"⟩) := by
  refine ⟨fun h scorer₂ => ?_, fun h1 h2 scorer₂ => ?_, fun h1 h2 hm1 hm2 => ?_⟩
  · unfold stepHandler
    rw [if_pos h]
  · unfold stepHandler
    rw [if_neg (by omega), if_pos h2]
  · have hch : ∀ logits kc,
        chooseTok fexp flog sample logits mode kc temperature top_p =
          Except.error ("Unsupported mode: " ++ mode) := by
      intro logits kc
      unfold chooseTok
      rw [if_neg hm1, if_neg hm2]
    unfold stepHandler
    rw [if_neg (by omega), if_neg (by omega)]
    simp only [hch]

/-- Witness for C7: a zero `top_k`, an oversized context and an unknown mode
are each rejected with the corresponding structured error. -/
theorem request_validation_witness :
    stepHandler (fun _ => []) (fun _ => []) id id (fun _ => 0) [] (0 : Int) ("argmax")
        none none false none none = Except.error topKErrorBody ∧
    stepHandler (fun _ => []) (fun _ => []) id id (fun _ => 0)
        (List.replicate 50001 'a') (5 : Int) ("argmax")
        none none false none none = Except.error payloadErrorBody ∧
    stepHandler (fun _ => []) (fun _ => []) id id (fun _ => 0) [] (5 : Int) ("greedy")
        none none false none none =
      Except.error ⟨"Unsupported mode: " ++ "greedy", "Check your input parameters"⟩ := by
  refine ⟨(request_validation (fun _ => []) (fun _ => []) id id (fun _ => 0) [] 0 ("argmax")
      none none false none none).1 (by omega) _,
    (request_validation (fun _ => []) (fun _ => []) id id (fun _ => 0)
      (List.replicate 50001 'a') 5 ("argmax") none none false none none).2.1 (by omega)
      (by rw [List.length_replicate]; norm_num [MAX_PAYLOAD_SIZE]) _,
    (request_validation (fun _ => []) (fun _ => []) id id (fun _ => 0) [] 5 ("greedy")
      none none false none none).2.2 (by omega) (by norm_num [MAX_PAYLOAD_SIZE])
      (by decide) (by decide)⟩

end NextWord
